import Mathlib

/-!
Shallow embedding of the telemetry pipeline of `Sofwtare.py`:
the geodesic primitives (`calculate_haversine_distance`, `calculate_bearing`),
the loader (`load_data`) and the derivation pipeline (`process_telemetry_data`),
modelled over the real numbers (idealised float arithmetic), together with
proofs of the spec's testable properties.
-/

/-- Earth radius in meters (source constant `EARTH_RADIUS_METERS`). -/
def EARTH_RADIUS_METERS : ℝ := 6371000

/-- Embedding of `np.radians`: degrees to radians. -/
noncomputable def radians (d : ℝ) : ℝ := d * (Real.pi / 180)

/-- Embedding of `np.degrees`: radians to degrees. -/
noncomputable def degrees (r : ℝ) : ℝ := r * (180 / Real.pi)

/-- Embedding of `np.arctan2 y x`: the angle of the vector `(x, y)` in `(-π, π]`,
realised as the complex argument of `x + y*I`. -/
noncomputable def arctan2 (y x : ℝ) : ℝ := Complex.arg ⟨x, y⟩

/-- Embedding of the numpy float `%` operation: `x % m = x - m * ⌊x / m⌋`
(the remainder has the sign of the divisor, as in Python/numpy). -/
noncomputable def fmod (x m : ℝ) : ℝ := x - m * (⌊x / m⌋ : ℤ)

/-- The intermediate `a` of the haversine formula (source lines 28-30):
`a = sin(dlat/2)**2 + cos(lat1_rad)*cos(lat2_rad)*sin(dlon/2)**2`. -/
noncomputable def hav_a (lat1 lon1 lat2 lon2 : ℝ) : ℝ :=
  Real.sin ((radians lat2 - radians lat1) / 2) ^ 2 +
    Real.cos (radians lat1) * Real.cos (radians lat2) *
      Real.sin ((radians lon2 - radians lon1) / 2) ^ 2

/-- Embedding of `calculate_haversine_distance` (source lines 25-33):
`c = 2 * arctan2(sqrt(a), sqrt(1-a))`, `distance = EARTH_RADIUS_METERS * c`. -/
noncomputable def calculate_haversine_distance (lat1 lon1 lat2 lon2 : ℝ) : ℝ :=
  EARTH_RADIUS_METERS *
    (2 * arctan2 (Real.sqrt (hav_a lat1 lon1 lat2 lon2))
      (Real.sqrt (1 - hav_a lat1 lon1 lat2 lon2)))

/-- Embedding of `calculate_bearing` (source lines 35-43):
`x = cos(lat2)*sin(dLon)`, `y = cos(lat1)*sin(lat2) - sin(lat1)*cos(lat2)*cos(dLon)`,
`bearing_deg = (degrees(arctan2(x, y)) + 360) % 360`. -/
noncomputable def calculate_bearing (lat1 lon1 lat2 lon2 : ℝ) : ℝ :=
  fmod (degrees (arctan2
      (Real.cos (radians lat2) * Real.sin (radians lon2 - radians lon1))
      (Real.cos (radians lat1) * Real.sin (radians lat2) -
        Real.sin (radians lat1) * Real.cos (radians lat2) *
          Real.cos (radians lon2 - radians lon1))) + 360) 360

/- Helper lemmas about the geodesic primitives. -/

theorem arctan2_nonneg {y : ℝ} (x : ℝ) (hy : 0 ≤ y) : 0 ≤ arctan2 y x :=
  Complex.arg_nonneg_iff.mpr hy

theorem arctan2_zero_one : arctan2 0 1 = 0 := by
  have h : (⟨1, 0⟩ : ℂ) = 1 := by
    apply Complex.ext <;> simp
  show Complex.arg ⟨1, 0⟩ = 0
  rw [h, Complex.arg_one]

theorem haversine_nonneg (lat1 lon1 lat2 lon2 : ℝ) :
    0 ≤ calculate_haversine_distance lat1 lon1 lat2 lon2 := by
  unfold calculate_haversine_distance EARTH_RADIUS_METERS
  have h := arctan2_nonneg (Real.sqrt (1 - hav_a lat1 lon1 lat2 lon2))
    (Real.sqrt_nonneg (hav_a lat1 lon1 lat2 lon2))
  positivity

theorem hav_a_self (lat lon : ℝ) : hav_a lat lon lat lon = 0 := by
  simp [hav_a]

theorem haversine_self (lat lon : ℝ) :
    calculate_haversine_distance lat lon lat lon = 0 := by
  unfold calculate_haversine_distance
  rw [hav_a_self]
  simp [arctan2_zero_one]

theorem hav_a_symm (lat1 lon1 lat2 lon2 : ℝ) :
    hav_a lat1 lon1 lat2 lon2 = hav_a lat2 lon2 lat1 lon1 := by
  unfold hav_a
  have h : ∀ u v : ℝ, Real.sin ((u - v) / 2) ^ 2 = Real.sin ((v - u) / 2) ^ 2 := by
    intro u v
    rw [show (u - v) / 2 = -((v - u) / 2) by ring, Real.sin_neg, neg_sq]
  rw [h (radians lat2) (radians lat1), h (radians lon2) (radians lon1),
    mul_comm (Real.cos (radians lat1))]

theorem fmod_nonneg_lt (x : ℝ) : 0 ≤ fmod x 360 ∧ fmod x 360 < 360 := by
  have hrw : fmod x 360 = 360 * Int.fract (x / 360) := by
    unfold fmod
    rw [Int.fract, mul_sub, mul_div_cancel₀ x (by norm_num : (360 : ℝ) ≠ 0)]
  rw [hrw]
  constructor
  · exact mul_nonneg (by norm_num) (Int.fract_nonneg _)
  · calc 360 * Int.fract (x / 360) < 360 * 1 :=
        mul_lt_mul_of_pos_left (Int.fract_lt_one _) (by norm_num)
      _ = 360 := mul_one 360

/- Data model and the derivation pipeline `process_telemetry_data` (source lines 45-82). -/

/-- One row of the validated input table: columns `lat`, `lng`, `vel`. -/
structure RawSample where
  lat : ℝ
  lng : ℝ
  vel : ℝ

/-- One row of the enriched table: the raw columns plus every derived column the
pipeline adds (source lines 48-81). -/
structure EnrichedSample where
  lat : ℝ
  lng : ℝ
  vel : ℝ
  vel_mps : ℝ
  lat_prev : ℝ
  lng_prev : ℝ
  vel_mps_prev : ℝ
  delta_distance_m : ℝ
  avg_vel_mps : ℝ
  delta_t_s : ℝ
  time_s : ℝ
  delta_v_mps : ℝ
  acceleration_mpss : ℝ
  bearing : ℝ
  icon : String
deriving Inhabited

/-- Column `vel_mps` (source line 49): `vel / 3.6`. -/
noncomputable def vel_mps (s : RawSample) : ℝ := s.vel / 3.6

/-- Column `avg_vel_mps` (source line 60): `(vel_mps + vel_mps_prev) / 2`. -/
noncomputable def avg_vel_mps (prev cur : RawSample) : ℝ :=
  (vel_mps cur + vel_mps prev) / 2

/-- Column `delta_distance_m` (source lines 55-59): haversine distance from the
previous position to the current one. -/
noncomputable def delta_distance_m (prev cur : RawSample) : ℝ :=
  calculate_haversine_distance prev.lat prev.lng cur.lat cur.lng

/-- Column `delta_t_s` (source lines 61-66): `0`, overwritten with
`delta_distance_m / avg_vel_mps` on the rows where `avg_vel_mps > 1e-6`. -/
noncomputable def delta_t_s (prev cur : RawSample) : ℝ :=
  if avg_vel_mps prev cur > 1e-6 then delta_distance_m prev cur / avg_vel_mps prev cur
  else 0

/-- Column `acceleration_mpss` (source lines 68-74): `0`, overwritten with
`delta_v_mps / delta_t_s` on the rows where `delta_t_s > 1e-6`. -/
noncomputable def acceleration_mpss (prev cur : RawSample) : ℝ :=
  if delta_t_s prev cur > 1e-6 then (vel_mps cur - vel_mps prev) / delta_t_s prev cur
  else 0

/-- One enriched row, given the previous raw sample `prev`, the current raw
sample `cur` and the cumulative time `t` of the previous row.  Collects all
per-row column computations of source lines 48-81; `icon` is the constant
column of line 81. -/
noncomputable def enrich (prev cur : RawSample) (t : ℝ) : EnrichedSample where
  lat := cur.lat
  lng := cur.lng
  vel := cur.vel
  vel_mps := vel_mps cur
  lat_prev := prev.lat
  lng_prev := prev.lng
  vel_mps_prev := vel_mps prev
  delta_distance_m := delta_distance_m prev cur
  avg_vel_mps := avg_vel_mps prev cur
  delta_t_s := delta_t_s prev cur
  time_s := t + delta_t_s prev cur
  delta_v_mps := vel_mps cur - vel_mps prev
  acceleration_mpss := acceleration_mpss prev cur
  bearing := calculate_bearing prev.lat prev.lng cur.lat cur.lng
  icon := "arrow"

/-- Rows `i ≥ 1` of the pipeline: each row looks back (`shift(1)`, source lines
50-52) at the preceding raw sample, and `time_s` is the running sum of
`delta_t_s` (source line 67). -/
noncomputable def processRest : RawSample → ℝ → List RawSample → List EnrichedSample
  | _, _, [] => []
  | prev, t, cur :: rest =>
    enrich prev cur t :: processRest cur (t + delta_t_s prev cur) rest

/-- Embedding of `process_telemetry_data` (source lines 45-82): the empty table
maps to the empty table (line 47); row 0 uses itself as its previous sample
(lines 53-54) and its `acceleration_mpss` is explicitly overwritten with `0`
(line 75). -/
noncomputable def process_telemetry_data : List RawSample → List EnrichedSample
  | [] => []
  | first :: rest =>
    { enrich first first 0 with acceleration_mpss := 0 } ::
      processRest first (0 + delta_t_s first first) rest

/- Helper lemmas about the pipeline. -/

theorem delta_t_s_nonneg (prev cur : RawSample) : 0 ≤ delta_t_s prev cur := by
  unfold delta_t_s
  split
  · next h =>
      exact div_nonneg (haversine_nonneg _ _ _ _)
        (le_of_lt (lt_trans (by norm_num) h))
  · exact le_refl 0

theorem processRest_length (rest : List RawSample) :
    ∀ (prev : RawSample) (t : ℝ), (processRest prev t rest).length = rest.length := by
  induction rest with
  | nil => intro prev t; rfl
  | cons cur rest ih =>
      intro prev t
      simp [processRest, ih]

theorem process_length (trace : List RawSample) :
    (process_telemetry_data trace).length = trace.length := by
  cases trace with
  | nil => rfl
  | cons first rest => simp [process_telemetry_data, processRest_length]

theorem processRest_time_chain (rest : List RawSample) :
    ∀ (prev : RawSample) (t : ℝ) (a : EnrichedSample), a.time_s ≤ t →
      List.Chain (fun x y : EnrichedSample => x.time_s ≤ y.time_s) a
        (processRest prev t rest) := by
  induction rest with
  | nil => intro prev t a _; exact List.Chain.nil
  | cons cur rest ih =>
      intro prev t a ha
      refine List.Chain.cons ?_ ?_
      · exact le_trans ha (le_add_of_nonneg_right (delta_t_s_nonneg prev cur))
      · exact ih cur (t + delta_t_s prev cur) (enrich prev cur t) (le_of_eq rfl)

theorem process_time_chain (trace : List RawSample) :
    List.Chain' (fun x y : EnrichedSample => x.time_s ≤ y.time_s)
      (process_telemetry_data trace) := by
  cases trace with
  | nil => exact trivial
  | cons first rest =>
      show List.Chain _ _ _
      exact processRest_time_chain rest first (0 + delta_t_s first first) _ (le_of_eq rfl)

theorem mem_processRest (rest : List RawSample) :
    ∀ (prev : RawSample) (t : ℝ) (e : EnrichedSample), e ∈ processRest prev t rest →
      ∃ p c t0, e = enrich p c t0 := by
  induction rest with
  | nil => intro prev t e h; cases h
  | cons cur rest ih =>
      intro prev t e h
      cases h with
      | head => exact ⟨prev, cur, t, rfl⟩
      | tail _ h => exact ih cur (t + delta_t_s prev cur) e h

/- Loader/validator `load_data` (source lines 12-23).  The parsed CSV is
modelled as a table with a header and numeric rows; the `st.error` call of
line 18 is modelled as the optional message returned alongside the frame,
and the `return pd.DataFrame()` of line 19 as returning the empty frame. -/

/-- A parsed tabular input: header columns and numeric rows. -/
structure DataFrame where
  columns : List String
  rows : List (List ℝ)

/-- The required columns of source line 16: `['lat', 'lng', 'vel']`. -/
def required_cols : List String := ["lat", "lng", "vel"]

/-- The empty frame `pd.DataFrame()` returned on validation failure. -/
def emptyDataFrame : DataFrame := ⟨[], []⟩

/-- The message of the `st.error` call of source line 18: it renders the full
`required_cols` list. -/
def missing_cols_message : String :=
  "O arquivo CSV deve conter as colunas: " ++ String.intercalate ", " required_cols

/-- Embedding of `load_data` (source lines 12-23): when some required column is
absent from the header, report the missing-columns message and hand back an
empty frame; otherwise hand back the frame unchanged with no message. -/
def load_data (df : DataFrame) : DataFrame × Option String :=
  if ¬ (∀ c ∈ required_cols, c ∈ df.columns) then
    (emptyDataFrame, some missing_cols_message)
  else (df, none)

/- Concrete inputs used by the witnesses. -/

/-- A raw sample at the origin with zero speed. -/
noncomputable def sampleA : RawSample := ⟨0, 0, 0⟩

/-- A raw sample slightly east of the origin at 36 km/h. -/
noncomputable def sampleB : RawSample := ⟨0, 1 / 1000, 36⟩

/-- An input table whose header misses every required column. -/
def badFrame : DataFrame := ⟨["latitude", "longitude", "speed"], []⟩

theorem two_sample_length :
    0 + 1 < (process_telemetry_data [sampleA, sampleB]).length := by
  rw [process_length]
  simp

/- Claim theorems. -/

/-- C1: in the enriched trace produced by `process_telemetry_data`, the
cumulative column `time_s` is monotonically non-decreasing: for every index
`i ≥ 1`, `time_s[i] ≥ time_s[i-1]`. -/
theorem time_s_monotone (trace : List RawSample) (i : ℕ)
    (h : i + 1 < (process_telemetry_data trace).length) :
    ((process_telemetry_data trace).get ⟨i, Nat.lt_of_succ_lt h⟩).time_s ≤
      ((process_telemetry_data trace).get ⟨i + 1, h⟩).time_s := by
  exact List.chain'_iff_get.mp (process_time_chain trace) i (by omega)

theorem time_s_monotone_witness :
    ((process_telemetry_data [sampleA, sampleB]).get
        ⟨0, Nat.lt_of_succ_lt two_sample_length⟩).time_s ≤
      ((process_telemetry_data [sampleA, sampleB]).get
        ⟨0 + 1, two_sample_length⟩).time_s :=
  time_s_monotone [sampleA, sampleB] 0 two_sample_length

/-- C2: every row of the enriched trace has
`delta_t_s = if avg_vel_mps > 1e-6 then delta_distance_m / avg_vel_mps else 0`;
in particular a step whose average speed is at or below `1e-6` yields
`delta_t_s = 0` without any division. -/
theorem delta_t_s_formula (trace : List RawSample) (e : EnrichedSample)
    (h : e ∈ process_telemetry_data trace) :
    e.delta_t_s =
      if e.avg_vel_mps > 1e-6 then e.delta_distance_m / e.avg_vel_mps else 0 := by
  cases trace with
  | nil => simp [process_telemetry_data] at h
  | cons first rest =>
      unfold process_telemetry_data at h
      rcases List.mem_cons.mp h with rfl | h2
      · rfl
      · obtain ⟨p, c, t0, rfl⟩ := mem_processRest rest first _ e h2
        rfl

theorem delta_t_s_formula_witness :
    (({ enrich sampleA sampleA 0 with acceleration_mpss := 0 } : EnrichedSample) ∈
        process_telemetry_data [sampleA]) ∧
      ({ enrich sampleA sampleA 0 with acceleration_mpss := 0 } : EnrichedSample).delta_t_s =
        if ({ enrich sampleA sampleA 0 with
              acceleration_mpss := 0 } : EnrichedSample).avg_vel_mps > 1e-6 then
          ({ enrich sampleA sampleA 0 with
              acceleration_mpss := 0 } : EnrichedSample).delta_distance_m /
            ({ enrich sampleA sampleA 0 with
                acceleration_mpss := 0 } : EnrichedSample).avg_vel_mps
        else 0 := by
  have hm : ({ enrich sampleA sampleA 0 with acceleration_mpss := 0 } : EnrichedSample) ∈
      process_telemetry_data [sampleA] := List.Mem.head _
  exact ⟨hm, delta_t_s_formula [sampleA] _ hm⟩

/-- C3: the first enriched row has its previous-sample columns equal to its own
`lat`, `lng`, `vel_mps`, and has `delta_t_s = 0` and `acceleration_mpss = 0`
exactly. -/
theorem first_row_zero_motion (first : RawSample) (rest : List RawSample) :
    (process_telemetry_data (first :: rest)).headI.lat_prev =
        (process_telemetry_data (first :: rest)).headI.lat ∧
      (process_telemetry_data (first :: rest)).headI.lng_prev =
        (process_telemetry_data (first :: rest)).headI.lng ∧
      (process_telemetry_data (first :: rest)).headI.vel_mps_prev =
        (process_telemetry_data (first :: rest)).headI.vel_mps ∧
      (process_telemetry_data (first :: rest)).headI.delta_t_s = 0 ∧
      (process_telemetry_data (first :: rest)).headI.acceleration_mpss = 0 := by
  refine ⟨rfl, rfl, rfl, ?_, rfl⟩
  show delta_t_s first first = 0
  unfold delta_t_s
  split
  · unfold delta_distance_m
    rw [haversine_self, zero_div]
  · rfl

/-- C4: every row `i ≥ 1` of the enriched trace (its tail) has
`acceleration_mpss = if delta_t_s > 1e-6 then (vel_mps - vel_mps_prev) / delta_t_s
else 0` — the acceleration division is gated on elapsed time with the same
epsilon `1e-6` that gates average speed for `delta_t_s`. -/
theorem acceleration_formula (trace : List RawSample) (e : EnrichedSample)
    (h : e ∈ (process_telemetry_data trace).tail) :
    e.acceleration_mpss =
      if e.delta_t_s > 1e-6 then (e.vel_mps - e.vel_mps_prev) / e.delta_t_s else 0 := by
  cases trace with
  | nil => simp [process_telemetry_data] at h
  | cons first rest =>
      unfold process_telemetry_data at h
      rw [List.tail_cons] at h
      obtain ⟨p, c, t0, rfl⟩ := mem_processRest rest first _ e h
      rfl

theorem acceleration_formula_witness :
    (enrich sampleA sampleB (0 + delta_t_s sampleA sampleA) ∈
        (process_telemetry_data [sampleA, sampleB]).tail) ∧
      (enrich sampleA sampleB (0 + delta_t_s sampleA sampleA)).acceleration_mpss =
        if (enrich sampleA sampleB (0 + delta_t_s sampleA sampleA)).delta_t_s > 1e-6 then
          ((enrich sampleA sampleB (0 + delta_t_s sampleA sampleA)).vel_mps -
              (enrich sampleA sampleB (0 + delta_t_s sampleA sampleA)).vel_mps_prev) /
            (enrich sampleA sampleB (0 + delta_t_s sampleA sampleA)).delta_t_s
        else 0 := by
  have hm : enrich sampleA sampleB (0 + delta_t_s sampleA sampleA) ∈
      (process_telemetry_data [sampleA, sampleB]).tail := List.Mem.head _
  exact ⟨hm, acceleration_formula [sampleA, sampleB] _ hm⟩

/-- C5: the great-circle distance is symmetric:
`calculate_haversine_distance A B = calculate_haversine_distance B A`
for all points. -/
theorem distance_symmetric (lat1 lon1 lat2 lon2 : ℝ) :
    calculate_haversine_distance lat1 lon1 lat2 lon2 =
      calculate_haversine_distance lat2 lon2 lat1 lon1 := by
  unfold calculate_haversine_distance
  rw [hav_a_symm]

/-- C6: the great-circle distance of a point to itself is `0`, and the distance
is non-negative for all pairs of points. -/
theorem distance_self_zero_and_nonneg (latA lonA latB lonB : ℝ) :
    calculate_haversine_distance latA lonA latA lonA = 0 ∧
      0 ≤ calculate_haversine_distance latA lonA latB lonB :=
  ⟨haversine_self latA lonA, haversine_nonneg latA lonA latB lonB⟩

/-- C7: for distinct points, the bearing lies in the half-open interval
`[0, 360)`. -/
theorem bearing_range (lat1 lon1 lat2 lon2 : ℝ)
    (_h : (lat1, lon1) ≠ (lat2, lon2)) :
    0 ≤ calculate_bearing lat1 lon1 lat2 lon2 ∧
      calculate_bearing lat1 lon1 lat2 lon2 < 360 := by
  unfold calculate_bearing
  exact fmod_nonneg_lt _

theorem bearing_range_witness :
    ((0 : ℝ), (0 : ℝ)) ≠ ((0 : ℝ), (1 : ℝ)) ∧
      (0 ≤ calculate_bearing 0 0 0 1 ∧ calculate_bearing 0 0 0 1 < 360) := by
  have hne : ((0 : ℝ), (0 : ℝ)) ≠ ((0 : ℝ), (1 : ℝ)) := by
    intro hEq
    have h2 := congrArg Prod.snd hEq
    norm_num at h2
  exact ⟨hne, bearing_range 0 0 0 1 hne⟩

/-- C8: the pipeline maps the empty trace to the empty trace and preserves the
length of every trace. -/
theorem empty_identity_and_length_preserved :
    process_telemetry_data [] = [] ∧
      ∀ trace : List RawSample,
        (process_telemetry_data trace).length = trace.length :=
  ⟨rfl, process_length⟩

/-- C9: when the header lacks some required column, `load_data` reports the
missing-columns message — which renders the full required list
`lat, lng, vel` — and returns the empty frame (no partial trace). -/
theorem missing_columns_failure (df : DataFrame)
    (h : ¬ ∀ c ∈ required_cols, c ∈ df.columns) :
    load_data df = (emptyDataFrame, some missing_cols_message) ∧
      (load_data df).1.rows = [] ∧
      missing_cols_message = "O arquivo CSV deve conter as colunas: lat, lng, vel" := by
  have hl : load_data df = (emptyDataFrame, some missing_cols_message) := by
    unfold load_data
    rw [if_pos h]
  refine ⟨hl, ?_, rfl⟩
  rw [hl]
  rfl

theorem missing_columns_failure_witness :
    (¬ ∀ c ∈ required_cols, c ∈ badFrame.columns) ∧
      (load_data badFrame = (emptyDataFrame, some missing_cols_message) ∧
        (load_data badFrame).1.rows = [] ∧
        missing_cols_message = "O arquivo CSV deve conter as colunas: lat, lng, vel") := by
  have h : ¬ ∀ c ∈ required_cols, c ∈ badFrame.columns := by decide
  exact ⟨h, missing_columns_failure badFrame h⟩

/-- C10: every row of the enriched trace carries the extra constant column
`icon = "arrow"`. -/
theorem icon_is_arrow (trace : List RawSample) (e : EnrichedSample)
    (h : e ∈ process_telemetry_data trace) : e.icon = "arrow" := by
  cases trace with
  | nil => simp [process_telemetry_data] at h
  | cons first rest =>
      unfold process_telemetry_data at h
      rcases List.mem_cons.mp h with rfl | h2
      · rfl
      · obtain ⟨p, c, t0, rfl⟩ := mem_processRest rest first _ e h2
        rfl

theorem icon_is_arrow_witness :
    (({ enrich sampleA sampleA 0 with acceleration_mpss := 0 } : EnrichedSample) ∈
        process_telemetry_data [sampleA]) ∧
      ({ enrich sampleA sampleA 0 with acceleration_mpss := 0 } : EnrichedSample).icon =
        "arrow" := by
  have hm : ({ enrich sampleA sampleA 0 with acceleration_mpss := 0 } : EnrichedSample) ∈
      process_telemetry_data [sampleA] := List.Mem.head _
  exact ⟨hm, icon_is_arrow [sampleA] _ hm⟩
